import Mathlib

/-!
# Verification of the fluent_anvil JavaScript adapter

A shallow embedding of `src/js_library/src/fluent_anvil.js`: the resource
fetcher (`fetch_resource`), the bundle builder (`create_bundle`), the
fallback bundle generator (`create_bundle_generator` /
`generate_bundles`), the locale-detection wrapper (`get_user_locales`)
and the entry point (`init_localization`).

Modelling conventions:
* JavaScript strings are Lean `String`s; `String.replace` with a string
  pattern (first occurrence only) is `jsReplace`.  JavaScript's
  `String.replace` additionally interprets `$`-escape sequences inside the
  replacement string; locale tags and the fixed replacement `"_"` used by
  this code never contain `$`, and that corner is not modelled.
* The browser `fetch` API is a function from a URL to either a network
  error (a rejected promise) or an `HttpResponse`.  Per the Fetch
  standard, an HTTP error status (404, 500, ...) still resolves the
  promise; the code under verification never inspects `response.status`.
* The dynamically-typed `errors.entries` field (an array that the
  `+=` in `create_bundle` rebinds to a string) is a `JsVal`; the two
  `{entries: []}` objects allocated by `init_localization` live in a
  small explicit `Store`: `props` maps an object reference to the current
  value of its `entries` property, and `arrs` holds the array objects
  themselves (which are only ever read, never pushed to).
* The external Fluent engine is abstract: `FluentResource` wraps the
  fetched text, `FluentBundle.addResource`'s per-message parse errors are
  an uninterpreted function `ParseErrors` from resource text to the
  string forms of the returned error objects.
* The `async function*` generator is the standard cursor embedding: a
  `GenState` holds the locales not yet emitted, and `gen_next` performs
  exactly the work the JavaScript generator performs between one `next()`
  call and the following suspension point, returning the fetch trace (the
  URLs requested during that step).  An exception thrown by an awaited
  fetch completes the generator, as it does in JavaScript.
-/

namespace FluentAnvil

/-! ## Strings and first-occurrence replacement -/

/-- Boolean test that `pat` occurs at the head of `s` (character lists). -/
def leadsWith : List Char → List Char → Bool
  | [], _ => true
  | _ :: _, [] => false
  | p :: ps, c :: cs => p == c && leadsWith ps cs

/-- First-occurrence textual replacement on character lists: the semantics of
JavaScript `String.replace` with a string pattern (no `$`-escapes, see the
module comment).  If the pattern never occurs the string is unchanged. -/
def replaceFirst : List Char → List Char → List Char → List Char
  | [], _, _ => []
  | c :: cs, pat, rep =>
    if leadsWith pat (c :: cs) then rep ++ List.drop pat.length (c :: cs)
    else c :: replaceFirst cs pat rep

/-- JavaScript `s.replace(pat, rep)` with a string pattern. -/
def jsReplace (s pat rep : String) : String :=
  String.mk (replaceFirst s.data pat.data rep.data)

/-- All suffixes of a character list (the list itself down to `[]`). -/
def sufs : List Char → List (List Char)
  | [] => [[]]
  | c :: cs => (c :: cs) :: sufs cs

/-! ## The resource fetcher (`fetch_resource`) -/

/-- A resolved HTTP response: `fetch` resolves with one of these for every
HTTP status (404 and 500 included); only a network-level failure rejects. -/
structure HttpResponse where
  status : Nat
  body : String
deriving DecidableEq

/-- The network environment seen by the browser `fetch` API: URL to either a
network error (rejected promise) or a resolved response. -/
abbrev Network := String → Except String HttpResponse

/-- `new FluentResource(text)`: the engine-owned parsed resource, abstracted
to the text it was built from. -/
structure FluentResource where
  text : String
deriving DecidableEq

/-- The URL `fetch_resource` requests: the first hyphen of `locale` becomes
an underscore, then the first `{locale}` placeholder of `resourceId` is
replaced by the normalized locale. -/
def fetch_resource_url (locale resourceId : String) : String :=
  jsReplace resourceId "{locale}" (jsReplace locale "-" "_")

/-- `fetch_resource(locale, resourceId)`: resolve the URL, `await fetch`,
`await response.text()`, wrap in a `FluentResource`.  The response status is
never inspected, so any resolved response's body becomes the resource text;
only a rejected fetch propagates as an error. -/
def fetch_resource (net : Network) (locale resourceId : String) :
    Except String FluentResource :=
  match net (fetch_resource_url locale resourceId) with
  | .error e => .error e
  | .ok resp => .ok ⟨resp.body⟩

/-! ## Error accumulators and `create_bundle` -/

/-- A JavaScript value that can sit in an `entries` property: initially a
reference to an array object, after the first `+=` a string. -/
inductive JsVal where
  | arrRef (i : Nat)
  | str (s : String)
deriving DecidableEq

/-- `Array.prototype.toString`: elements joined with commas. -/
def jsArrJoin : List String → String
  | [] => ""
  | [x] => x
  | x :: y :: t => x ++ "," ++ jsArrJoin (y :: t)

/-- Coercion of an `entries` value to a string, as JavaScript `+` performs it
(array values stringify through the array object they reference). -/
def JsVal.toStr (arrs : List (List String)) : JsVal → String
  | .arrRef i => jsArrJoin (arrs.getD i [])
  | .str s => s

/-- The mutable state shared between the generators: `props r` is the current
value of the `entries` property of errors object `r`; `arrs` holds the array
objects those properties initially reference. -/
structure Store where
  props : Nat → JsVal
  arrs : List (List String)

/-- Property write `errors.entries = v` on errors object `r`. -/
def Store.assign (st : Store) (r : Nat) (v : JsVal) : Store :=
  ⟨fun i => if i = r then v else st.props i, st.arrs⟩

/-- The external engine's `bundle.addResource`: per-message parse/validation
errors as a function of the resource text (abstract, the engine is out of
scope).  The bundle itself is returned regardless of these errors. -/
abbrev ParseErrors := String → List String

/-- `new FluentBundle(locale)` after `addResource`: the locale tag the bundle
was constructed with and the resources added to it. -/
structure FluentBundle where
  locale : String
  resources : List FluentResource
deriving DecidableEq

/-- `create_bundle(locale, resourceId, errors)`: fetch the resource (an
awaited rejection propagates), build the bundle with the *original* locale
tag, then `errors.entries += bundle.addResource(resource)` — JavaScript `+`
on an array/string left operand stringifies both sides and rebinds the
property to the concatenation.  The trailing `console.log` loop reads but
never writes, so it is not modelled. -/
def create_bundle (net : Network) (pe : ParseErrors) (locale resourceId : String)
    (r : Nat) (store : Store) : Except String (FluentBundle × Store) :=
  match fetch_resource net locale resourceId with
  | .error e => .error e
  | .ok res =>
    .ok (⟨locale, [res]⟩,
      store.assign r (.str (JsVal.toStr store.arrs (store.props r)
        ++ jsArrJoin (pe res.text))))

/-! ## The fallback bundle generator -/

/-- State of one `generate_bundles` generator object: the locales not yet
emitted and the errors object captured by the closure.  A thrown fetch error
empties `pending` (an uncaught exception completes a JavaScript generator). -/
structure GenState where
  pending : List String
  errRef : Nat
deriving DecidableEq

/-- The generator `create_bundle_generator(locale, fallback_locales, errors)`
returns, before its first `next()`: it will emit the primary locale and then
each fallback locale in list order. -/
def generate_bundles_init (locale : String) (fallback_locales : List String)
    (r : Nat) : GenState :=
  ⟨locale :: fallback_locales, r⟩

/-- Outcome of one `next()` call on the generator. -/
inductive StepResult where
  | done
  | yielded (b : FluentBundle)
  | raised (e : String)
deriving DecidableEq

/-- One consumer-driven `next()` call: nothing runs before it, and it runs the
generator body exactly up to the next suspension point.  Returns the outcome,
the successor generator state, the store after the step, and the fetch trace
(the URLs requested during this step). -/
def gen_next (net : Network) (pe : ParseErrors) (resourceId : String)
    (st : GenState) (store : Store) :
    StepResult × GenState × Store × List String :=
  match st.pending with
  | [] => (.done, ⟨[], st.errRef⟩, store, [])
  | loc :: rest =>
    match create_bundle net pe loc resourceId st.errRef store with
    | .error e => (.raised e, ⟨[], st.errRef⟩, store,
        [fetch_resource_url loc resourceId])
    | .ok (b, store') => (.yielded b, ⟨rest, st.errRef⟩, store',
        [fetch_resource_url loc resourceId])

/-- `n` consecutive `next()` calls: the list of outcomes, the final store, and
the concatenated fetch trace. -/
def gen_steps (net : Network) (pe : ParseErrors) (resourceId : String) :
    Nat → GenState → Store → List StepResult × Store × List String
  | 0, _, store => ([], store, [])
  | n + 1, st, store =>
    let s1 := gen_next net pe resourceId st store
    let s2 := gen_steps net pe resourceId n s1.2.1 s1.2.2.1
    (s1.1 :: s2.1, s2.2.1, s1.2.2.2 ++ s2.2.2)

/-! ## `init_localization` and `get_user_locales` -/

/-- What `init_localization` hands back: the resource id list given to both
engine handles, the two generators, and the values read from
`dom_errors.entries` / `main_errors.entries` at return time. -/
structure InitResult where
  resource_ids : List String
  dom_gen : GenState
  main_gen : GenState
  dom_errors : JsVal
  main_errors : JsVal

/-- `init_localization(resource_path_template, locale, fallback_locales)`:
allocates two fresh `{entries: []}` objects (references 0 and 1), builds one
generator over each with the same locale/fallback configuration, wires them
into `DOMLocalization` and `Localization` (external engine calls, including
the `connectRoot`/`translateRoots` DOM side effect, are outside the model),
and returns both generators together with the `entries` values as they stand
at return time. -/
def init_localization (resource_path_template locale : String)
    (fallback_locales : List String) : InitResult × Store :=
  let store : Store := ⟨fun i => JsVal.arrRef i, [[], []]⟩
  ({ resource_ids := [resource_path_template]
   , dom_gen := generate_bundles_init locale fallback_locales 0
   , main_gen := generate_bundles_init locale fallback_locales 1
   , dom_errors := store.props 0
   , main_errors := store.props 1 }, store)

/-- Options object passed to the `get-user-locale` library. -/
structure GetUserLocaleOptions where
  fallbackLocale : String
  useFallbackLocale : Bool
deriving DecidableEq

/-- The external `getUserLocales` library call, abstracted over whether an
options object is passed. -/
abbrev GetUserLocaleLib := Option GetUserLocaleOptions → List String

/-- JavaScript truthiness of a string: every string but `""` is truthy. -/
def jsTruthy (s : String) : Bool := s != ""

/-- `get_user_locales(fallback)`: `if (fallback)` forwards the fallback as
`{fallbackLocale: fallback, useFallbackLocale: true}`; otherwise the library
is invoked with no options. -/
def get_user_locales (lib : GetUserLocaleLib) (fallback : Option String) :
    List String :=
  match fallback with
  | some f => if jsTruthy f then lib (some ⟨f, true⟩) else lib none
  | none => lib none

/-! ## Concrete fixtures for witnesses and counterexamples -/

/-- A network on which every fetch resolves with status 200 and body `f url`. -/
def okNet (f : String → String) : Network := fun u => .ok ⟨200, f u⟩

/-- A network on which every fetch resolves with an HTTP 404 error page. -/
def net404 : Network := fun _ => .ok ⟨404, "Not Found"⟩

/-- A network on which every fetch promise rejects. -/
def netFail : Network := fun _ => .error "network unreachable"

/-- An engine that reports no parse errors. -/
def pe0 : ParseErrors := fun _ => []

/-- An engine response for a resource with one malformed and one well-formed
message: the bundle is still produced and exactly one error is returned. -/
def peBroken : ParseErrors := fun _ => ["expected message entry"]

/-- Resource content served in the error-accumulation witness. -/
def fTwoMessages : String → String := fun _ => "ok = fine\nbroken ="

/-- The store as `init_localization` allocates it. -/
def store0 : Store := ⟨fun i => JsVal.arrRef i, [[], []]⟩

/-- A probe library that records whether an options object was passed. -/
def libProbe : GetUserLocaleLib := fun o =>
  match o with
  | some _ => ["fallback-forwarded"]
  | none => []

/-! ## Lemmas on first-occurrence replacement -/

lemma leadsWith_append_self (l t : List Char) : leadsWith l (l ++ t) = true := by
  induction l with
  | nil => rfl
  | cons c cs ih => simp [leadsWith, ih]

lemma sufs_self_mem (l : List Char) : l ∈ sufs l := by
  cases l with
  | nil => simp [sufs]
  | cons c cs => simp [sufs]

lemma sufs_cons_of_mem (c : Char) (l s : List Char) (h : s ∈ sufs l) :
    s ∈ sufs (c :: l) := by
  simp [sufs]
  exact Or.inr h

/-- Replacing a pattern that first occurs after the prefix `p` substitutes
exactly that occurrence and leaves everything after it (including later
occurrences inside `q`) untouched. -/
lemma replaceFirst_of_clean (pat rep q : List Char) (hpat : pat ≠ []) :
    ∀ p : List Char,
      (∀ s ∈ sufs p, s ≠ [] → leadsWith pat (s ++ (pat ++ q)) = false) →
      replaceFirst (p ++ (pat ++ q)) pat rep = p ++ (rep ++ q) := by
  intro p
  induction p with
  | nil =>
    intro _
    cases pat with
    | nil => exact absurd rfl hpat
    | cons a ps =>
      have h1 : leadsWith (a :: ps) ((a :: ps) ++ q) = true :=
        leadsWith_append_self _ _
      show replaceFirst ((a :: ps) ++ q) (a :: ps) rep = rep ++ q
      rw [List.cons_append, replaceFirst, ← List.cons_append, if_pos h1,
        List.drop_left]
  | cons c p' ih =>
    intro h
    have hhead : leadsWith pat (c :: (p' ++ (pat ++ q))) = false :=
      h (c :: p') (sufs_self_mem _) (by simp)
    have htail : ∀ s ∈ sufs p', s ≠ [] →
        leadsWith pat (s ++ (pat ++ q)) = false :=
      fun s hs hne => h s (sufs_cons_of_mem c p' s hs) hne
    show replaceFirst (c :: (p' ++ (pat ++ q))) pat rep = c :: (p' ++ (rep ++ q))
    rw [replaceFirst, ← List.cons_append, if_neg (by simp [hhead]), ih htail]

/-- Single-character first-occurrence replacement: the first `c` after a
`c`-free prefix is the one replaced. -/
lemma replaceFirst_single (c d : Char) (a b : List Char) (ha : c ∉ a) :
    replaceFirst (a ++ c :: b) [c] [d] = a ++ d :: b := by
  induction a with
  | nil =>
    show replaceFirst (c :: b) [c] [d] = d :: b
    simp [replaceFirst, leadsWith]
  | cons x a' ih =>
    have hcx : (c == x) = false := by
      have : c ≠ x := fun hEq => ha (hEq ▸ List.mem_cons_self x a')
      simp [this]
    have ha' : c ∉ a' := fun hm => ha (List.mem_cons_of_mem _ hm)
    show replaceFirst (x :: (a' ++ c :: b)) [c] [d] = x :: (a' ++ d :: b)
    simp [replaceFirst, leadsWith, hcx, ih ha']

lemma string_ext {a b : String} (h : a.data = b.data) : a = b := by
  cases a
  cases b
  exact congrArg String.mk h

lemma data_append (a b : String) : (a ++ b).data = a.data ++ b.data := by
  cases a
  cases b
  rfl

lemma jsReplace_data (s pat rep : String) :
    (jsReplace s pat rep).data = replaceFirst s.data pat.data rep.data := rfl

lemma dash_data : ("-" : String).data = [Char.ofNat 45] := rfl

lemma underscore_data : ("_" : String).data = [Char.ofNat 95] := rfl

/-- `locale.replace("-", "_")` rewrites exactly the first hyphen. -/
lemma jsReplace_hyphen (a b : String) (ha : Char.ofNat 45 ∉ a.data) :
    jsReplace (a ++ "-" ++ b) "-" "_" = a ++ "_" ++ b := by
  apply string_ext
  have h1 : (a ++ "-" ++ b).data = a.data ++ Char.ofNat 45 :: b.data := by
    rw [data_append, data_append, dash_data, List.append_assoc,
      List.singleton_append]
  have h2 : (a ++ "_" ++ b).data = a.data ++ Char.ofNat 95 :: b.data := by
    rw [data_append, data_append, underscore_data, List.append_assoc,
      List.singleton_append]
  rw [jsReplace_data, dash_data, underscore_data, h1, h2]
  exact replaceFirst_single (Char.ofNat 45) (Char.ofNat 95) a.data b.data ha

/-- `resourceId.replace("{locale}", n)` substitutes the first placeholder
occurrence only; the tail `q` (later occurrences included) is untouched. -/
lemma jsReplace_placeholder (p q n : String)
    (hp : ∀ s ∈ sufs p.data, s ≠ [] →
      leadsWith ("{locale}" : String).data
        (s ++ (("{locale}" : String).data ++ q.data)) = false) :
    jsReplace (p ++ "{locale}" ++ q) "{locale}" n = p ++ n ++ q := by
  apply string_ext
  have h1 : (p ++ "{locale}" ++ q).data
      = p.data ++ (("{locale}" : String).data ++ q.data) := by
    rw [data_append, data_append, List.append_assoc]
  have h2 : (p ++ n ++ q).data = p.data ++ (n.data ++ q.data) := by
    rw [data_append, data_append, List.append_assoc]
  rw [jsReplace_data, h1, h2]
  exact replaceFirst_of_clean ("{locale}" : String).data n.data q.data
    (by decide) p.data hp

/-! ## Generator lemmas -/

lemma gen_next_nil (net : Network) (pe : ParseErrors) (rid : String) (r : Nat)
    (store : Store) :
    gen_next net pe rid ⟨[], r⟩ store = (.done, ⟨[], r⟩, store, []) := rfl

lemma gen_next_okNet (f : String → String) (pe : ParseErrors)
    (rid loc : String) (rest : List String) (r : Nat) (store : Store) :
    gen_next (okNet f) pe rid ⟨loc :: rest, r⟩ store
      = (.yielded ⟨loc, [⟨f (fetch_resource_url loc rid)⟩]⟩, ⟨rest, r⟩,
         store.assign r (.str (JsVal.toStr store.arrs (store.props r)
           ++ jsArrJoin (pe (f (fetch_resource_url loc rid))))),
         [fetch_resource_url loc rid]) := rfl

lemma gen_steps_succ (net : Network) (pe : ParseErrors) (rid : String)
    (n : Nat) (st : GenState) (store : Store) :
    gen_steps net pe rid (n + 1) st store
      = ((gen_next net pe rid st store).1 ::
          (gen_steps net pe rid n (gen_next net pe rid st store).2.1
            (gen_next net pe rid st store).2.2.1).1,
         (gen_steps net pe rid n (gen_next net pe rid st store).2.1
            (gen_next net pe rid st store).2.2.1).2.1,
         (gen_next net pe rid st store).2.2.2
           ++ (gen_steps net pe rid n (gen_next net pe rid st store).2.1
                (gen_next net pe rid st store).2.2.1).2.2) := rfl

/-- On an all-success network each `next()` yields the bundle for the head
pending locale; once the pending list is exhausted every call reports done. -/
lemma gen_steps_okNet_results (f : String → String) (pe : ParseErrors)
    (rid : String) (r : Nat) :
    ∀ (n : Nat) (pending : List String) (store : Store),
      (gen_steps (okNet f) pe rid n ⟨pending, r⟩ store).1
        = (pending.take n).map
            (fun l => StepResult.yielded ⟨l, [⟨f (fetch_resource_url l rid)⟩]⟩)
          ++ List.replicate (n - pending.length) StepResult.done := by
  intro n
  induction n with
  | zero => intro pending store; simp [gen_steps]
  | succ n ih =>
    intro pending store
    cases pending with
    | nil =>
      rw [gen_steps_succ, gen_next_nil]
      simp [ih, List.replicate_succ]
    | cons loc rest =>
      rw [gen_steps_succ, gen_next_okNet]
      simp only [ih rest]
      simp [Nat.succ_sub_succ]

/-- On an all-success network, `n` consumer demands fetch exactly the first
`n` pending locales' URLs, in order. -/
lemma gen_steps_okNet_trace (f : String → String) (pe : ParseErrors)
    (rid : String) (r : Nat) :
    ∀ (n : Nat) (pending : List String) (store : Store),
      (gen_steps (okNet f) pe rid n ⟨pending, r⟩ store).2.2
        = (pending.take n).map (fun l => fetch_resource_url l rid) := by
  intro n
  induction n with
  | zero => intro pending store; simp [gen_steps]
  | succ n ih =>
    intro pending store
    cases pending with
    | nil =>
      rw [gen_steps_succ, gen_next_nil]
      simp [ih]
    | cons loc rest =>
      rw [gen_steps_succ, gen_next_okNet]
      simp only [ih rest]
      simp

lemma gen_next_fail (net : Network) (pe : ParseErrors) (rid loc : String)
    (rest : List String) (r : Nat) (store : Store) (e : String)
    (hfail : net (fetch_resource_url loc rid) = .error e) :
    gen_next net pe rid ⟨loc :: rest, r⟩ store
      = (.raised e, ⟨[], r⟩, store, [fetch_resource_url loc rid]) := by
  simp [gen_next, create_bundle, fetch_resource, hfail]

/-! ## Frame lemmas: a generator only writes its own errors object -/

lemma create_bundle_frame (net : Network) (pe : ParseErrors)
    (loc rid : String) (r : Nat) (store : Store) (b : FluentBundle)
    (store' : Store) (h : create_bundle net pe loc rid r store = .ok (b, store')) :
    store'.arrs = store.arrs
    ∧ ∀ i, i ≠ r → store'.props i = store.props i := by
  unfold create_bundle at h
  cases hfr : fetch_resource net loc rid with
  | error e => rw [hfr] at h; simp at h
  | ok res =>
    rw [hfr] at h
    simp only [Except.ok.injEq, Prod.mk.injEq] at h
    obtain ⟨-, hs⟩ := h
    subst hs
    exact ⟨rfl, fun i hi => by simp [Store.assign, hi]⟩

lemma gen_next_state_errRef (net : Network) (pe : ParseErrors) (rid : String)
    (st : GenState) (store : Store) :
    (gen_next net pe rid st store).2.1.errRef = st.errRef := by
  obtain ⟨pending, r⟩ := st
  cases pending with
  | nil => rfl
  | cons loc rest =>
    cases hcb : create_bundle net pe loc rid r store with
    | error e => simp [gen_next, hcb]
    | ok pr => simp [gen_next, hcb]

lemma gen_next_frame (net : Network) (pe : ParseErrors) (rid : String)
    (st : GenState) (store : Store) :
    (gen_next net pe rid st store).2.2.1.arrs = store.arrs
    ∧ ∀ i, i ≠ st.errRef →
        (gen_next net pe rid st store).2.2.1.props i = store.props i := by
  obtain ⟨pending, r⟩ := st
  cases pending with
  | nil => exact ⟨rfl, fun _ _ => rfl⟩
  | cons loc rest =>
    cases hcb : create_bundle net pe loc rid r store with
    | error e => simp [gen_next, hcb]
    | ok pr =>
      obtain ⟨b, store'⟩ := pr
      have hf := create_bundle_frame net pe loc rid r store b store' hcb
      constructor
      · simp [gen_next, hcb, hf.1]
      · intro i hi
        simp [gen_next, hcb, hf.2 i hi]

lemma gen_steps_arrs (net : Network) (pe : ParseErrors) (rid : String) :
    ∀ (n : Nat) (st : GenState) (store : Store),
      (gen_steps net pe rid n st store).2.1.arrs = store.arrs := by
  intro n
  induction n with
  | zero => intro st store; rfl
  | succ n ih =>
    intro st store
    rw [gen_steps_succ]
    exact (ih _ _).trans (gen_next_frame net pe rid st store).1

lemma gen_steps_frame (net : Network) (pe : ParseErrors) (rid : String) :
    ∀ (n : Nat) (st : GenState) (store : Store) (i : Nat), i ≠ st.errRef →
      (gen_steps net pe rid n st store).2.1.props i = store.props i := by
  intro n
  induction n with
  | zero => intro st store i _; rfl
  | succ n ih =>
    intro st store i hi
    rw [gen_steps_succ]
    have h2 : i ≠ (gen_next net pe rid st store).2.1.errRef := by
      rw [gen_next_state_errRef]; exact hi
    exact (ih _ _ i h2).trans ((gen_next_frame net pe rid st store).2 i hi)

/-! ## Errors appear as substrings of the accumulator -/

lemma jsArrJoin_mem_infix (e : String) (l : List String) (he : e ∈ l) :
    ∃ p q : List Char, (jsArrJoin l).data = p ++ e.data ++ q := by
  induction l with
  | nil => cases he
  | cons x t ih =>
    cases t with
    | nil =>
      have hx : e = x := by simpa using he
      exact ⟨[], [], by simp [jsArrJoin, hx]⟩
    | cons y t' =>
      rcases List.mem_cons.mp he with h | h
      · refine ⟨[], ("," : String).data ++ (jsArrJoin (y :: t')).data, ?_⟩
        simp [jsArrJoin, ← h, data_append, List.append_assoc]
      · obtain ⟨p, q, hpq⟩ := ih h
        refine ⟨x.data ++ ("," : String).data ++ p, q, ?_⟩
        simp [jsArrJoin, data_append, hpq, List.append_assoc]

/-! ## Claim theorems -/

/-- Claim C1: on a bundle produced by the fallback generator, the parse errors
`addResource` returns are appended to the shared error accumulator (the
malformed entry's error text is present in the accumulator afterwards), the
bundle is still yielded, and the generator keeps producing every subsequent
fallback bundle. -/
theorem C1_parse_errors_appended_generator_continues (f : String → String)
    (pe : ParseErrors) (resourceId locale : String)
    (fallback_locales : List String) (r : Nat) (store : Store) (e : String)
    (he : e ∈ pe (f (fetch_resource_url locale resourceId))) :
    ∃ (b : FluentBundle) (store' : Store),
      gen_next (okNet f) pe resourceId
          (generate_bundles_init locale fallback_locales r) store
        = (.yielded b, ⟨fallback_locales, r⟩, store',
           [fetch_resource_url locale resourceId])
      ∧ (∃ p q : List Char,
          (JsVal.toStr store'.arrs (store'.props r)).data = p ++ e.data ++ q)
      ∧ (gen_steps (okNet f) pe resourceId fallback_locales.length
            ⟨fallback_locales, r⟩ store').1
          = fallback_locales.map
              (fun l => StepResult.yielded
                ⟨l, [⟨f (fetch_resource_url l resourceId)⟩]⟩) := by
  refine ⟨⟨locale, [⟨f (fetch_resource_url locale resourceId)⟩]⟩,
    store.assign r (.str (JsVal.toStr store.arrs (store.props r)
      ++ jsArrJoin (pe (f (fetch_resource_url locale resourceId))))),
    gen_next_okNet f pe resourceId locale fallback_locales r store, ?_, ?_⟩
  · obtain ⟨p, q, hpq⟩ := jsArrJoin_mem_infix e _ he
    refine ⟨(JsVal.toStr store.arrs (store.props r)).data ++ p, q, ?_⟩
    simp [Store.assign, JsVal.toStr, data_append, hpq, List.append_assoc]
  · rw [gen_steps_okNet_results f pe resourceId r]
    simp

theorem C1_parse_errors_appended_generator_continues_witness :
    ∃ (b : FluentBundle) (store' : Store),
      gen_next (okNet fTwoMessages) peBroken "loc/{locale}/main.ftl"
          (generate_bundles_init "en-US" ["en"] 0) store0
        = (.yielded b, ⟨["en"], 0⟩, store',
           [fetch_resource_url "en-US" "loc/{locale}/main.ftl"])
      ∧ (∃ p q : List Char,
          (JsVal.toStr store'.arrs (store'.props 0)).data
            = p ++ ("expected message entry" : String).data ++ q)
      ∧ (gen_steps (okNet fTwoMessages) peBroken "loc/{locale}/main.ftl" 1
            ⟨["en"], 0⟩ store').1
          = [StepResult.yielded ⟨"en", [⟨"ok = fine\nbroken ="⟩]⟩] :=
  C1_parse_errors_appended_generator_continues fTwoMessages peBroken
    "loc/{locale}/main.ftl" "en-US" ["en"] 0 store0 "expected message entry"
    (by decide)

/-- Claim C2: for every locale tag containing a hyphen (`a ++ "-" ++ b` with a
hyphen-free `a`) and every path template containing the `{locale}` placeholder
(`p ++ "{locale}" ++ q` with no occurrence starting inside `p`), the resolved
resource path is the template with that placeholder replaced by the locale tag
whose first hyphen became an underscore, otherwise identical; in particular
`"loc/{locale}/main.ftl"` with `"en-US"` resolves to `"loc/en_US/main.ftl"`. -/
theorem C2_resolved_path_first_hyphen_underscore (a b p q : String)
    (ha : Char.ofNat 45 ∉ a.data)
    (hp : ∀ s ∈ sufs p.data, s ≠ [] →
      leadsWith ("{locale}" : String).data
        (s ++ (("{locale}" : String).data ++ q.data)) = false) :
    fetch_resource_url (a ++ "-" ++ b) (p ++ "{locale}" ++ q)
      = p ++ (a ++ "_" ++ b) ++ q
    ∧ fetch_resource_url "en-US" "loc/{locale}/main.ftl"
      = "loc/en_US/main.ftl" := by
  constructor
  · show jsReplace (p ++ "{locale}" ++ q) "{locale}"
        (jsReplace (a ++ "-" ++ b) "-" "_") = _
    rw [jsReplace_hyphen a b ha, jsReplace_placeholder p q _ hp]
  · decide

theorem C2_resolved_path_first_hyphen_underscore_witness :
    fetch_resource_url ("en" ++ "-" ++ "US") ("loc/" ++ "{locale}" ++ "/main.ftl")
      = "loc/" ++ ("en" ++ "_" ++ "US") ++ "/main.ftl"
    ∧ fetch_resource_url "en-US" "loc/{locale}/main.ftl"
      = "loc/en_US/main.ftl" :=
  C2_resolved_path_first_hyphen_underscore "en" "US" "loc/" "/main.ftl"
    (by decide) (by decide)

/-- Claim C3: with every fetch succeeding, the generator yields the primary
locale's bundle first, then one bundle per fallback-chain entry in configured
order, and then reports done: the sequence has exactly
`1 + fallback_locales.length` bundles. -/
theorem C3_yield_order_and_count (f : String → String) (pe : ParseErrors)
    (resourceId locale : String) (fallback_locales : List String) (r : Nat)
    (store : Store) :
    (gen_steps (okNet f) pe resourceId (fallback_locales.length + 2)
        (generate_bundles_init locale fallback_locales r) store).1
      = ((locale :: fallback_locales).map
          (fun l => StepResult.yielded
            ⟨l, [⟨f (fetch_resource_url l resourceId)⟩]⟩))
        ++ [StepResult.done] := by
  have h := gen_steps_okNet_results f pe resourceId r
    (fallback_locales.length + 2) (locale :: fallback_locales) store
  simp only [generate_bundles_init]
  rw [h, List.take_of_length_le (by simp)]
  have hl : fallback_locales.length + 2 - (locale :: fallback_locales).length
      = 1 := by
    simp
  rw [hl, List.replicate_one]

/-- Claim C5: the generator is pull-driven: `n` consumer demands fetch exactly
the first `n` locales' resources (in order), and after one demand on a
succeeding primary locale only the primary resource has been fetched — no
fallback resource is requested until the consumer asks for a next bundle. -/
theorem C5_pull_driven_fetch_trace (f : String → String) (pe : ParseErrors)
    (resourceId locale : String) (fallback_locales : List String) (r : Nat)
    (store : Store) (n : Nat) :
    (gen_steps (okNet f) pe resourceId n
        (generate_bundles_init locale fallback_locales r) store).2.2
      = ((locale :: fallback_locales).take n).map
          (fun l => fetch_resource_url l resourceId)
    ∧ (gen_steps (okNet f) pe resourceId 1
        (generate_bundles_init locale fallback_locales r) store).2.2
      = [fetch_resource_url locale resourceId] := by
  constructor
  · exact gen_steps_okNet_trace f pe resourceId r n
      (locale :: fallback_locales) store
  · have h := gen_steps_okNet_trace f pe resourceId r 1
      (locale :: fallback_locales) store
    simpa using h

/-- Claim C4 counterexample: an HTTP failure does not propagate as a fatal
error.  On a network answering HTTP 404 with body `"Not Found"`, the
generator's first step yields a bundle built from the error page instead of
raising: the code never checks `response.ok`/`response.status`, and the Fetch
API only rejects on network-level failure. -/
theorem C4_http_failure_not_fatal_counterexample :
    net404 (fetch_resource_url "es-MX" "loc/{locale}/main.ftl")
      = Except.ok ⟨404, "Not Found"⟩
    ∧ (gen_next net404 pe0 "loc/{locale}/main.ftl"
        (generate_bundles_init "es-MX" ["en-US", "en-GB"] 0) store0).1
      = StepResult.yielded ⟨"es-MX", [⟨"Not Found"⟩]⟩ :=
  ⟨rfl, rfl⟩

/-- Claim C4 (amended to network failures): a rejected fetch for the locale at
the head of the sequence propagates as a raised error at that step — not
swallowed, a single fetch attempt, no fallback URL requested — and the
generator is then completed, so even a further advance performs no fetch. -/
theorem C4_network_failure_fatal (net : Network) (pe : ParseErrors)
    (resourceId loc : String) (rest : List String) (r : Nat) (store : Store)
    (e : String) (hfail : net (fetch_resource_url loc resourceId) = .error e) :
    gen_next net pe resourceId (generate_bundles_init loc rest r) store
      = (.raised e, ⟨[], r⟩, store, [fetch_resource_url loc resourceId])
    ∧ ∀ (net' : Network) (pe' : ParseErrors) (store' : Store),
        gen_next net' pe' resourceId ⟨[], r⟩ store'
          = (.done, ⟨[], r⟩, store', []) :=
  ⟨gen_next_fail net pe resourceId loc rest r store e hfail,
    fun _ _ _ => rfl⟩

theorem C4_network_failure_fatal_witness :
    gen_next netFail pe0 "loc/{locale}/main.ftl"
        (generate_bundles_init "es-MX" ["en-US", "en-GB"] 0) store0
      = (.raised "network unreachable", ⟨[], 0⟩, store0,
         [fetch_resource_url "es-MX" "loc/{locale}/main.ftl"]) :=
  (C4_network_failure_fatal netFail pe0 "loc/{locale}/main.ftl" "es-MX"
    ["en-US", "en-GB"] 0 store0 "network unreachable" rfl).1

/-- Claim C6: `init_localization` builds two generators over the same
locale/fallback configuration but distinct error accumulators, and the
accumulators are independent: driving the DOM generator any number of steps
leaves the formatter accumulator's `entries` untouched, and vice versa. -/
theorem C6_independent_error_accumulators (resource_path_template locale : String)
    (fallback_locales : List String) (net net' : Network) (pe pe' : ParseErrors)
    (n m : Nat) :
    (init_localization resource_path_template locale fallback_locales).1.dom_gen.errRef
      ≠ (init_localization resource_path_template locale fallback_locales).1.main_gen.errRef
    ∧ (init_localization resource_path_template locale fallback_locales).1.dom_gen
      = generate_bundles_init locale fallback_locales 0
    ∧ (init_localization resource_path_template locale fallback_locales).1.main_gen
      = generate_bundles_init locale fallback_locales 1
    ∧ (gen_steps net pe resource_path_template n
        (init_localization resource_path_template locale fallback_locales).1.dom_gen
        (init_localization resource_path_template locale fallback_locales).2).2.1.props
          (init_localization resource_path_template locale fallback_locales).1.main_gen.errRef
      = (init_localization resource_path_template locale fallback_locales).2.props
          (init_localization resource_path_template locale fallback_locales).1.main_gen.errRef
    ∧ (gen_steps net' pe' resource_path_template m
        (init_localization resource_path_template locale fallback_locales).1.main_gen
        (init_localization resource_path_template locale fallback_locales).2).2.1.props
          (init_localization resource_path_template locale fallback_locales).1.dom_gen.errRef
      = (init_localization resource_path_template locale fallback_locales).2.props
          (init_localization resource_path_template locale fallback_locales).1.dom_gen.errRef := by
  refine ⟨Nat.zero_ne_one, rfl, rfl, ?_, ?_⟩
  · exact gen_steps_frame net pe resource_path_template n _ _ _ Nat.one_ne_zero
  · exact gen_steps_frame net' pe' resource_path_template m _ _ _ Nat.zero_ne_one

/-- Claim C7 counterexample: a supplied empty-string fallback is *not*
forwarded — `if (fallback)` is a truthiness test, so `get_user_locales("")`
invokes the library with no options instead of forwarding the fallback. -/
theorem C7_empty_fallback_not_forwarded_counterexample :
    ¬ ∀ (lib : GetUserLocaleLib) (s : String),
        get_user_locales lib (some s) = lib (some ⟨s, true⟩) :=
  fun h => absurd (h libProbe "") (by decide)

/-- Claim C7 (amended to non-empty fallbacks): the helper delegates entirely
to the library — a truthy (non-empty) fallback is forwarded as
`{fallbackLocale: fallback, useFallbackLocale: true}`, and a call without a
fallback invokes the library with no options. -/
theorem C7_nonempty_fallback_forwarded (lib : GetUserLocaleLib) (s : String)
    (hs : s ≠ "") :
    get_user_locales lib (some s) = lib (some ⟨s, true⟩)
    ∧ get_user_locales lib none = lib none := by
  constructor
  · have ht : jsTruthy s = true := by simp [jsTruthy, hs]
    simp [get_user_locales, ht]
  · rfl

theorem C7_nonempty_fallback_forwarded_witness :
    get_user_locales libProbe (some "en-US") = libProbe (some ⟨"en-US", true⟩)
    ∧ get_user_locales libProbe none = libProbe none :=
  C7_nonempty_fallback_forwarded libProbe "en-US" (by decide)

/-- Claim C8: the `dom_errors` / `main_errors` values `init_localization`
returns are the accumulator arrays as they exist at return time (references to
the two freshly allocated empty arrays); every later bundle construction
rebinds the `entries` property to a string (the `+=` concatenation) and never
mutates the array objects, so the arrays the caller received stay `[]`. -/
theorem C8_returned_arrays_never_mutated (resource_path_template locale : String)
    (fallback_locales : List String) (f : String → String) (pe : ParseErrors) :
    (init_localization resource_path_template locale fallback_locales).1.dom_errors
      = JsVal.arrRef 0
    ∧ (init_localization resource_path_template locale fallback_locales).1.main_errors
      = JsVal.arrRef 1
    ∧ (init_localization resource_path_template locale fallback_locales).2.arrs
      = [[], []]
    ∧ (∀ (net : Network) (pe' : ParseErrors) (n : Nat),
        (gen_steps net pe' resource_path_template n
          (init_localization resource_path_template locale fallback_locales).1.dom_gen
          (init_localization resource_path_template locale fallback_locales).2).2.1.arrs
        = [[], []])
    ∧ (∀ (net : Network) (pe' : ParseErrors) (n : Nat),
        (gen_steps net pe' resource_path_template n
          (init_localization resource_path_template locale fallback_locales).1.main_gen
          (init_localization resource_path_template locale fallback_locales).2).2.1.arrs
        = [[], []])
    ∧ (∃ s : String,
        (gen_steps (okNet f) pe resource_path_template 1
          (init_localization resource_path_template locale fallback_locales).1.dom_gen
          (init_localization resource_path_template locale fallback_locales).2).2.1.props 0
        = JsVal.str s) := by
  refine ⟨rfl, rfl, rfl, ?_, ?_, ?_⟩
  · intro net pe' n
    exact gen_steps_arrs net pe' resource_path_template n _ _
  · intro net pe' n
    exact gen_steps_arrs net pe' resource_path_template n _ _
  · exact ⟨_, rfl⟩

/-- Claim C9: the bundle is constructed with the original, unnormalized locale
tag; the hyphen-to-underscore rewrite is local to the fetched URL.  For
`"en-US"` the URL segment is `"en_US"` while the bundle keeps `"en-US"`. -/
theorem C9_bundle_locale_unnormalized (f : String → String) (pe : ParseErrors)
    (locale resourceId : String) (r : Nat) (store : Store) :
    (∃ store' : Store,
      create_bundle (okNet f) pe locale resourceId r store
        = .ok (⟨locale,
            [⟨f (jsReplace resourceId "{locale}" (jsReplace locale "-" "_"))⟩]⟩,
          store'))
    ∧ jsReplace "en-US" "-" "_" = "en_US"
    ∧ ("en_US" : String) ≠ "en-US" :=
  ⟨⟨_, rfl⟩, by decide, by decide⟩

/-- Claim C10: only the first `{locale}` occurrence in the path template is
substituted; every later occurrence stays literally in the fetched URL, as the
double-placeholder example shows. -/
theorem C10_only_first_placeholder_substituted (loc p q : String)
    (hp : ∀ s ∈ sufs p.data, s ≠ [] →
      leadsWith ("{locale}" : String).data
        (s ++ (("{locale}" : String).data ++ q.data)) = false) :
    fetch_resource_url loc (p ++ "{locale}" ++ q)
      = p ++ jsReplace loc "-" "_" ++ q
    ∧ fetch_resource_url "en-US" "base/{locale}/sub/{locale}/main.ftl"
      = "base/en_US/sub/{locale}/main.ftl" :=
  ⟨jsReplace_placeholder p q _ hp, by decide⟩

theorem C10_only_first_placeholder_substituted_witness :
    fetch_resource_url "en-US" ("base/" ++ "{locale}" ++ "/sub/{locale}/main.ftl")
      = "base/" ++ jsReplace "en-US" "-" "_" ++ "/sub/{locale}/main.ftl"
    ∧ fetch_resource_url "en-US" "base/{locale}/sub/{locale}/main.ftl"
      = "base/en_US/sub/{locale}/main.ftl" :=
  C10_only_first_placeholder_substituted "en-US" "base/" "/sub/{locale}/main.ftl"
    (by decide)

end FluentAnvil
